import Mathlib

/-!
Verification of the lateness-tracker core: a shallow embedding of the
Schedule Registry (ClassManager), Arrival Ledger (ArrivalTracker), Report
Aggregator (ReportGenerator) and the Storage wrapper, together with proofs
about the specified properties.

Modelling conventions:
- JS objects become Lean structures; a JS object used as a string-keyed map
  (the weekly schedule) becomes an association list, where a missing key
  (JS undefined) is a failed lookup.
- Impure inputs (generated ids, the current wall-clock time, the current
  ISO timestamp, the ambient locale comparator) are passed as parameters.
- JS numbers arising here are integers; arithmetic is exact (Int and Rat),
  so Math.round on a quotient is modelled as the exact rational rounding.
- String operations are modelled on the underlying character lists so that
  every definition evaluates by kernel reduction; JS string comparison
  (code-unit lexicographic) is charListLt below.
- JS truthiness: null and undefined map to Option.none, the empty string is
  checked explicitly where the source relies on its falsiness; every JS
  object (even an empty one) is truthy.
-/

/-- Split a character list at every occurrence of the separator; models
JS String.split with a one-character separator. -/
def splitOnChar (sep : Char) : List Char → List (List Char)
  | [] => [[]]
  | c :: rest =>
    let r := splitOnChar sep rest
    if c = sep then [] :: r
    else
      match r with
      | [] => [[c]]
      | g :: gs => (c :: g) :: gs

/-- Value of a decimal digit character, none for other characters. -/
def digitVal (c : Char) : Option Nat :=
  if ('0' ≤ c ∧ c ≤ '9') then some (c.toNat - ('0').toNat) else none

/-- Accumulating decimal reading of a character list. -/
def digitsValAux (acc : Nat) : List Char → Option Nat
  | [] => some acc
  | c :: cs =>
    match digitVal c with
    | some d => digitsValAux (acc * 10 + d) cs
    | none => none

/-- Models JS Number(s) on the strings this program feeds it: the empty
string is 0, a plain decimal string is its value, anything else is NaN
(modelled none). -/
def jsNumberNat (cs : List Char) : Option Nat :=
  match cs with
  | [] => some 0
  | _ => digitsValAux 0 cs

/-- Code-unit lexicographic strict order on character lists; this is the
order JS uses for string comparison operators. -/
def charListLt : List Char → List Char → Bool
  | [], [] => false
  | [], _ :: _ => true
  | _ :: _, [] => false
  | a :: as, b :: bs => if a < b then true else if b < a then false else charListLt as bs

/-- JS string strict less-than. -/
def strLtJs (a b : String) : Bool := charListLt a.data b.data

/-- JS string less-or-equal, i.e. the negation of the reversed strict
comparison, as in the source filters using the >= and <= operators. -/
def strLeJs (a b : String) : Bool := !(strLtJs b a)

/-- The decimal digit characters. -/
def digitChar : Nat → Char
  | 0 => '0' | 1 => '1' | 2 => '2' | 3 => '3' | 4 => '4'
  | 5 => '5' | 6 => '6' | 7 => '7' | 8 => '8' | 9 => '9'
  | _ => '?'

/-- Fuelled decimal rendering (enough fuel for any number this program
formats); models the JS template-literal rendering of an integer. -/
def natCharsAux : Nat → Nat → List Char
  | 0, _ => []
  | fuel+1, n => if n < 10 then [digitChar n] else natCharsAux fuel (n / 10) ++ [digitChar (n % 10)]

/-- Decimal rendering of a natural number as a string. -/
def natToString (n : Nat) : String := ⟨natCharsAux 10 n⟩

/-- Two-digit zero padding; models String(n).padStart(2, "0") and the
two-digit fields of Date.prototype.toISOString. -/
def pad2 (n : Nat) : String := if n < 10 then "0" ++ natToString n else natToString n

/-- Four-digit zero padding; models the year field of toISOString for
years 0 to 9999. -/
def pad4 (n : Nat) : String :=
  if n < 10 then "000" ++ natToString n
  else if n < 100 then "00" ++ natToString n
  else if n < 1000 then "0" ++ natToString n
  else natToString n

/-- JS Math.round on an exact rational: round half toward positive
infinity. Floating-point artefacts of the double quotient are outside the
model; the operands here are small integers. -/
def jsRoundQ (q : ℚ) : ℤ := ⌊q + 1/2⌋

/-- Round half away from zero, the rounding mode named by the spec. -/
def roundHalfAwayFromZero (q : ℚ) : ℤ :=
  if 0 ≤ q then ⌊q + 1/2⌋ else -⌊-q + 1/2⌋

/-- One weekday entry of a schedule: the JS object with fields enabled,
startTime, endTime, the two times possibly absent. -/
structure DayEntry where
  enabled : Bool
  startTime : Option String := none
  endTime : Option String := none
deriving DecidableEq, Repr

/-- A weekly schedule: a JS object keyed by lowercase day names. A missing
day key (undefined in JS) is a failed lookup. -/
abbrev Schedule := List (String × DayEntry)

/-- Lookup of a day name in a schedule object. -/
def schedLookup (s : Schedule) (day : String) : Option DayEntry :=
  (s.find? (fun p => p.1 == day)).map (fun p => p.2)

/-- A Class entity as stored by the Schedule Registry. -/
structure ClassRec where
  id : String
  name : String
  schedule : Schedule
  createdAt : String
deriving DecidableEq, Repr

/-- A Student entity. -/
structure StudentRec where
  id : String
  name : String
  classId : String
  photoUrl : Option String
  createdAt : String
deriving DecidableEq, Repr

/-- An Arrival entity of the ledger. -/
structure Arrival where
  id : String
  studentId : String
  classId : String
  date : String
  time : String
  minutesLate : Int
  status : String
  createdAt : String
deriving DecidableEq, Repr

/-- ClassManager.defaultSchedule: Monday to Saturday enabled 12:30-14:20,
Sunday disabled. -/
def ClassManager.defaultSchedule : Schedule :=
  [("monday", { enabled := true, startTime := some "12:30", endTime := some "14:20" }),
   ("tuesday", { enabled := true, startTime := some "12:30", endTime := some "14:20" }),
   ("wednesday", { enabled := true, startTime := some "12:30", endTime := some "14:20" }),
   ("thursday", { enabled := true, startTime := some "12:30", endTime := some "14:20" }),
   ("friday", { enabled := true, startTime := some "12:30", endTime := some "14:20" }),
   ("saturday", { enabled := true, startTime := some "12:30", endTime := some "14:20" }),
   ("sunday", { enabled := false })]

/-- ClassManager.getById: find by id, null (none) when absent. -/
def ClassManager.getById (classes : List ClassRec) (id : String) : Option ClassRec :=
  classes.find? (fun c => c.id == id)

/-- ClassManager.add. The JS signature is add(name, schedule = default-empty-object)
followed by schedule-or-defaultSchedule. The argument is modelled at the JS
call boundary: none is a call that does not supply the argument (the
default parameter, an empty object, then applies), some none passes null,
some (some s) passes the object s. The empty object is truthy, so the
defaultSchedule fallback fires only for null. Returns the new class and the
updated class list; the generated id and timestamp are parameters. -/
def ClassManager.add (classes : List ClassRec) (newId name createdAt : String)
    (schedule : Option (Option Schedule)) : ClassRec × List ClassRec :=
  let param : Option Schedule :=
    match schedule with
    | none => some []
    | some v => v
  let schedVal : Schedule :=
    match param with
    | some s => s
    | none => ClassManager.defaultSchedule
  let newClass : ClassRec :=
    { id := newId, name := name, schedule := schedVal, createdAt := createdAt }
  (newClass, classes ++ [newClass])

/-- A partial Class object for update: fields absent from the update are
kept from the existing record (the JS shallow spread merge). -/
structure ClassUpdates where
  id : Option String := none
  name : Option String := none
  schedule : Option Schedule := none
  createdAt : Option String := none

/-- The JS spread merge of an update object over a class record. -/
def mergeClass (c : ClassRec) (u : ClassUpdates) : ClassRec :=
  { id := u.id.getD c.id, name := u.name.getD c.name,
    schedule := u.schedule.getD c.schedule, createdAt := u.createdAt.getD c.createdAt }

/-- ClassManager.update: replace the first class with the given id by the
merged record; none and the unchanged list when the id is unknown. -/
def ClassManager.update (id : String) (u : ClassUpdates) :
    List ClassRec → Option ClassRec × List ClassRec
  | [] => (none, [])
  | c :: rest =>
    if c.id == id then
      let merged := mergeClass c u
      (some merged, merged :: rest)
    else
      let r := ClassManager.update id u rest
      (r.1, c :: r.2)

/-- The day-name table indexed by getDay results, Sunday first. -/
def dayNames : List String :=
  ["sunday", "monday", "tuesday", "wednesday", "thursday", "friday", "saturday"]

/-- ClassManager.getScheduleForDay: null when the class is unknown,
otherwise the schedule entry under the day name (undefined, hence null,
when the schedule object lacks that key). Faithful for day indices 0-6. -/
def ClassManager.getScheduleForDay (classes : List ClassRec) (classId : String)
    (dayOfWeek : Nat) : Option DayEntry :=
  match ClassManager.getById classes classId with
  | none => none
  | some classObj => schedLookup classObj.schedule (dayNames.getD dayOfWeek "")

/-- Models new Date(date).getDay() for well-formed ISO YYYY-MM-DD dates in
a UTC environment, by Zeller's congruence (0 Sunday to 6 Saturday). A
malformed date (an invalid Date, whose getDay is NaN) yields the
out-of-range index 7, which makes the day-name lookup miss just as the
NaN index does in JS. -/
def dayOfWeekOf (date : String) : Nat :=
  match splitOnChar ('-') date.data with
  | [ys, ms, ds] =>
    match jsNumberNat ys, jsNumberNat ms, jsNumberNat ds with
    | some y, some m, some d =>
      if ys = [] ∨ ms = [] ∨ ds = [] then 7
      else
        let p := if m ≤ 2 then (y - 1, m + 12) else (y, m)
        let K := p.1 % 100
        let J := p.1 / 100
        (d + (13 * (p.2 + 1)) / 5 + K + K / 4 + J / 4 + 5 * J + 6) % 7
    | _, _, _ => 7
  | _ => 7

/-- Minutes since midnight of an HH:MM string: the source splits on the
colon, reads the first two pieces with Number and combines hour*60+minute.
none models the NaN outcome of a piece that is not numeric. -/
def clockToMinutes (s : String) : Option Int :=
  match splitOnChar (':') s.data with
  | h :: m :: _ =>
    match jsNumberNat h, jsNumberNat m with
    | some hn, some mn => some ((hn : Int) * 60 + mn)
    | _, _ => none
  | _ => none

/-- JS truthiness of a string-or-absent value: undefined, null and the
empty string are falsy. -/
def truthyOptStr : Option String → Bool
  | none => false
  | some s => !(s == "")

/-- The time actually recorded: the supplied time if truthy, otherwise the
current wall clock, modelling time-or-now in the source. -/
def resolveTime (time : Option String) (nowTime : String) : String :=
  match time with
  | some t => if t == "" then nowTime else t
  | none => nowTime

/-- The lateness classification step of markArrival: consult the day
schedule; when it is present, enabled and has a truthy start time, the
minutes late are max 0 (arrival - start) and the status is late exactly
when that is positive; otherwise 0 and on-time. -/
def computeLateness (classes : List ClassRec) (classId date arrivalTime : String) :
    Int × String :=
  let schedule := ClassManager.getScheduleForDay classes classId (dayOfWeekOf date)
  match schedule with
  | some e =>
    if e.enabled && truthyOptStr e.startTime then
      match e.startTime with
      | some st0 =>
        match clockToMinutes st0, clockToMinutes arrivalTime with
        | some sm, some am =>
          let ml := max 0 (am - sm)
          (ml, if 0 < ml then "late" else "on-time")
        | _, _ => (0, "on-time")
      | none => (0, "on-time")
    else (0, "on-time")
  | none => (0, "on-time")

/-- The Arrival record markArrival constructs in its success path. -/
def buildArrival (classes : List ClassRec) (newId studentId classId date : String)
    (time : Option String) (nowTime nowISO : String) : Arrival :=
  let arrivalTime := resolveTime time nowTime
  let r := computeLateness classes classId date arrivalTime
  { id := newId, studentId := studentId, classId := classId, date := date,
    time := arrivalTime, minutesLate := r.1, status := r.2, createdAt := nowISO }

/-- The two shapes markArrival returns: the structured rejection carrying
the existing record (success false, message "Already marked"), or the
success carrying the created record. -/
inductive MarkOutcome where
  | rejected (existing : Arrival)
  | created (arrival : Arrival)
deriving DecidableEq, Repr

/-- The success flag of a markArrival result. -/
def MarkOutcome.success : MarkOutcome → Bool
  | .rejected _ => false
  | .created _ => true

/-- ArrivalTracker.markArrival: refuse when an arrival for the same
student and date already exists (returning it unchanged), otherwise append
the freshly classified record. Returns the outcome and the ledger. -/
def ArrivalTracker.markArrival (classes : List ClassRec) (arrivals : List Arrival)
    (newId studentId classId date : String) (time : Option String)
    (nowTime nowISO : String) : MarkOutcome × List Arrival :=
  match arrivals.find? (fun a => a.studentId == studentId && a.date == date) with
  | some existing => (.rejected existing, arrivals)
  | none =>
    let arrival := buildArrival classes newId studentId classId date time nowTime nowISO
    (.created arrival, arrivals ++ [arrival])

/-- ArrivalTracker.removeArrival: delete the first arrival matching the
student and date; the flag reports whether a deletion occurred. -/
def ArrivalTracker.removeArrival (studentId date : String) :
    List Arrival → Bool × List Arrival
  | [] => (false, [])
  | a :: rest =>
    if a.studentId == studentId && a.date == date then (true, rest)
    else
      let r := ArrivalTracker.removeArrival studentId date rest
      (r.1, a :: r.2)

/-- The start-bound step of the stats date filter: applied only when the
bound is truthy, comparing ISO date strings with the JS >= operator. -/
def windowAfter (startDate : Option String) (l : List Arrival) : List Arrival :=
  match startDate with
  | some s => if s == "" then l else l.filter (fun a => strLeJs s a.date)
  | none => l

/-- The end-bound step of the stats date filter, the JS <= comparison. -/
def windowBefore (endDate : Option String) (l : List Arrival) : List Arrival :=
  match endDate with
  | some s => if s == "" then l else l.filter (fun a => strLeJs a.date s)
  | none => l

/-- The optional inclusive date-range filter shared by both stats
operations: the two sequential conditional filters of the source. -/
def dateWindow (startDate endDate : Option String) (l : List Arrival) : List Arrival :=
  windowBefore endDate (windowAfter startDate l)

/-- The object ArrivalTracker.getStudentStats returns. -/
structure StudentStats where
  totalArrivals : Nat
  onTime : Nat
  tardies : Nat
  totalMinutesLate : Int
  avgMinutesLate : Int
deriving DecidableEq, Repr

/-- ArrivalTracker.getStudentStats: filter by student and optional date
range, then count, sum minutes late over all filtered entries, and round
the quotient by the late count (0 when no late entries). -/
def ArrivalTracker.getStudentStats (arrivals : List Arrival) (studentId : String)
    (startDate endDate : Option String) : StudentStats :=
  let filtered := dateWindow startDate endDate
    (arrivals.filter (fun a => a.studentId == studentId))
  let total := filtered.length
  let tardies := (filtered.filter (fun a => a.status == "late")).length
  let onTime := (filtered.filter (fun a => a.status == "on-time")).length
  let totalMinutesLate := filtered.foldl (fun sum a => sum + a.minutesLate) 0
  { totalArrivals := total, onTime := onTime, tardies := tardies,
    totalMinutesLate := totalMinutesLate,
    avgMinutesLate :=
      if 0 < tardies then jsRoundQ ((totalMinutesLate : ℚ) / tardies) else 0 }

/-- The object ArrivalTracker.getClassStats returns. -/
structure ClassStats where
  totalArrivals : Nat
  onTime : Nat
  tardies : Nat
  latenessRate : Int
deriving DecidableEq, Repr

/-- ArrivalTracker.getClassStats: filter by class and optional date range,
count, and round the percentage of late entries (0 when nothing matched). -/
def ArrivalTracker.getClassStats (arrivals : List Arrival) (classId : String)
    (startDate endDate : Option String) : ClassStats :=
  let filtered := dateWindow startDate endDate
    (arrivals.filter (fun a => a.classId == classId))
  let tardies := (filtered.filter (fun a => a.status == "late")).length
  let onTime := (filtered.filter (fun a => a.status == "on-time")).length
  { totalArrivals := filtered.length, onTime := onTime, tardies := tardies,
    latenessRate :=
      if 0 < filtered.length then jsRoundQ ((tardies : ℚ) / filtered.length * 100) else 0 }

/-- Gregorian leap-year rule. -/
def isLeap (y : Nat) : Bool := (y % 4 == 0 && y % 100 != 0) || y % 400 == 0

/-- Length of a calendar month (month 1-12). -/
def daysInMonth (y m : Nat) : Nat :=
  if m == 2 then (if isLeap y then 29 else 28)
  else if m == 4 ∨ m == 6 ∨ m == 9 ∨ m == 11 then 30 else 31

/-- Models new Date(y, m, 0) (0-based month index m) as a civil
(year, 1-based month, day) triple: ECMA MakeDay first normalizes the month
into year-and-month, then day 0 is the day before the first of that month,
i.e. the last day of the preceding month. -/
def jsDateMonthDay0 (y m : Nat) : Nat × Nat × Nat :=
  let ym := y + m / 12
  let mn := m % 12
  if mn = 0 then (ym - 1, 12, 31) else (ym, mn, daysInMonth ym mn)

/-- The monthly report's start date: the template literal year-pad2(month)-01. -/
def ReportGenerator.startDateOf (year month : Nat) : String :=
  natToString year ++ "-" ++ pad2 month ++ "-01"

/-- The monthly report's end date: new Date(year, month, 0) rendered
through toISOString and truncated at the T (a UTC environment is
assumed; the date fields of toISOString are zero-padded). -/
def ReportGenerator.endDateOf (year month : Nat) : String :=
  let c := jsDateMonthDay0 year month
  pad4 c.1 ++ "-" ++ pad2 c.2.1 ++ "-" ++ pad2 c.2.2

/-- One entry of a report row's per-arrival detail list. -/
structure ArrivalDetail where
  date : String
  time : String
  minutesLate : Int
deriving DecidableEq, Repr

/-- One student row of a monthly report. -/
structure StudentRow where
  id : String
  name : String
  photoUrl : Option String
  totalDays : Nat
  onTime : Nat
  tardies : Nat
  totalMinutesLate : Int
  avgMinutesLate : Int
  arrivals : List ArrivalDetail
deriving DecidableEq, Repr

/-- A monthly report. The locale-derived month name and the generation
timestamp are impure presentation fields and are not modelled. -/
structure MonthlyReport where
  classId : String
  className : String
  year : Nat
  month : Nat
  students : List StudentRow
deriving DecidableEq, Repr

/-- Insert one row into a name-sorted row list, using the ambient locale
comparator (passed as the boolean relation le on names). -/
def insertByName (le : String → String → Bool) (x : StudentRow) :
    List StudentRow → List StudentRow
  | [] => [x]
  | y :: ys => if le y.name x.name then y :: insertByName le x ys else x :: y :: ys

/-- Models Array.prototype.sort with the localeCompare comparator: an
insertion sort parameterized by the locale order on names. -/
def sortByName (le : String → String → Bool) : List StudentRow → List StudentRow
  | [] => []
  | x :: xs => insertByName le x (sortByName le xs)

/-- ReportGenerator.generateMonthlyReport: null for an unknown class;
otherwise one row per student of the class, aggregating that student's
arrivals whose dates lie in the inclusive month window, rows sorted by
name. The arrivals parameter is the stored ledger the source reads back
from storage. -/
def ReportGenerator.generateMonthlyReport (le : String → String → Bool)
    (classes : List ClassRec) (students : List StudentRec) (arrivals : List Arrival)
    (classId : String) (year month : Nat) : Option MonthlyReport :=
  match ClassManager.getById classes classId with
  | none => none
  | some classObj =>
    let classStudents := students.filter (fun s => s.classId == classId)
    let startDate := ReportGenerator.startDateOf year month
    let endDate := ReportGenerator.endDateOf year month
    let rows : List StudentRow := classStudents.map (fun student =>
      let sArr := arrivals.filter (fun a =>
        a.studentId == student.id && strLeJs startDate a.date && strLeJs a.date endDate)
      let tardies := sArr.filter (fun a => a.status == "late")
      let totalMinutesLate := tardies.foldl (fun sum a => sum + a.minutesLate) 0
      { id := student.id, name := student.name, photoUrl := student.photoUrl,
        totalDays := sArr.length,
        onTime := (sArr.filter (fun a => a.status == "on-time")).length,
        tardies := tardies.length,
        totalMinutesLate := totalMinutesLate,
        avgMinutesLate :=
          if 0 < tardies.length then jsRoundQ ((totalMinutesLate : ℚ) / tardies.length) else 0,
        arrivals := sArr.map (fun a =>
          { date := a.date, time := a.time, minutesLate := a.minutesLate }) })
    some { classId := classId, className := classObj.name, year := year, month := month,
           students := sortByName le rows }

/-- The storage namespace of the application. -/
def NS : String := "lateness-tracker"

/-- The key prefix the Storage wrapper puts in front of every key. -/
def nsC : String := NS ++ ":"

/-- Storage key namespacing: the template literal namespace:key. -/
def Storage.fullKey (key : String) : String := nsC ++ key

/-- The backing localStorage: an association list from full keys to
values. Values are modelled post-JSON: set serializes and get parses, and
serialize-then-parse is the identity on JSON-representable values, so the
store holds the values themselves; the value type stays abstract. -/
abbrev Store (V : Type) := List (String × V)

/-- localStorage.getItem. -/
def Store.getItem {V : Type} (st : Store V) (k : String) : Option V :=
  (st.find? (fun p => p.1 == k)).map (fun p => p.2)

/-- localStorage.setItem: overwrite in place when the key exists (keys are
unique in localStorage), append otherwise. -/
def Store.setItem {V : Type} (st : Store V) (k : String) (v : V) : Store V :=
  if st.any (fun p => p.1 == k) then
    st.map (fun p => if p.1 == k then (k, v) else p)
  else st ++ [(k, v)]

/-- Storage.get: the stored value under the namespaced key, or the default
(null when the caller passes none). -/
def Storage.get {V : Type} (st : Store V) (key : String) (dflt : Option V) : Option V :=
  match st.getItem (Storage.fullKey key) with
  | some v => some v
  | none => dflt

/-- Storage.set: serialize and write, reporting success. The underlying
setItem can throw (e.g. quota exceeded), which the source catches and
converts to false with the store unchanged; which writes succeed is
modelled by the canWrite parameter of the environment. -/
def Storage.set {V : Type} (canWrite : String → Bool) (st : Store V) (key : String)
    (v : V) : Store V × Bool :=
  if canWrite key then (st.setItem (Storage.fullKey key) v, true) else (st, false)

/-- Prefix test on strings via their character lists; models
String.prototype.startsWith. -/
def strStartsWith (p s : String) : Bool := p.data.isPrefixOf s.data

/-- Removal of a leading prefix; models key.replace(prefix, "") in
exportAll, which replaces only the first occurrence and is applied only to
keys that start with the prefix. -/
def strDropLeading (p s : String) : String := ⟨s.data.drop p.data.length⟩

/-- Storage.exportAll: every stored entry under the namespace, keyed by
its unprefixed key. localStorage keys are unique, so the re-lookup
this.get(shortKey) in the source returns exactly the entry's value, which
is inlined here. -/
def Storage.exportAll {V : Type} (st : Store V) : List (String × V) :=
  (st.filter (fun p => strStartsWith nsC p.1)).map
    (fun p => (strDropLeading nsC p.1, p.2))

/-- Storage.importAll: write every pair through set, discarding the
boolean results. -/
def Storage.importAll {V : Type} (canWrite : String → Bool) (st : Store V)
    (data : List (String × V)) : Store V :=
  data.foldl (fun s kv => (Storage.set canWrite s kv.1 kv.2).1) st

/-- The structured result of ReportGenerator.importJSON. -/
structure ImportResult where
  success : Bool
  error : Option String
deriving DecidableEq, Repr

/-- The JSON.parse outcome of an import payload, as far as the import path
distinguishes it: a parse exception (a SyntaxError); the JSON value null,
on which the Object.entries call inside importAll throws a TypeError
before any write; or any other value, carried as the entry list
Object.entries yields for it (the own enumerable entries of the value or
of its wrapper object — the empty list for a number or a boolean). -/
inductive ParsedJson (V : Type) where
  | parseError
  | jsNull
  | entries (data : List (String × V))

/-- ReportGenerator.importJSON: parse, then importAll, inside a try/catch.
Both exception paths — the parse failure and the TypeError that
Object.entries(null) raises inside importAll before any write — are
caught by the same catch, which reports the exception's message (the
errMsg parameter) with the store untouched; for every other payload
the import runs and success is reported, the write results being
discarded. -/
def ReportGenerator.importJSON {V : Type} (canWrite : String → Bool) (st : Store V)
    (parsed : ParsedJson V) (errMsg : String) : ImportResult × Store V :=
  match parsed with
  | .parseError => ({ success := false, error := some errMsg }, st)
  | .jsNull => ({ success := false, error := some errMsg }, st)
  | .entries data => ({ success := true, error := none }, Storage.importAll canWrite st data)

/-- The in-memory state the App object wires together: each manager's
loaded collection. -/
structure AppState where
  classes : List ClassRec
  students : List StudentRec
  arrivals : List Arrival
deriving DecidableEq, Repr

/-- classManager.update as seen from the app: only the class collection
changes. -/
def App.updateClass (st : AppState) (id : String) (u : ClassUpdates) :
    Option ClassRec × AppState :=
  let r := ClassManager.update id u st.classes
  (r.1, { st with classes := r.2 })

/-- arrivalTracker.markArrival as seen from the app: only the arrival
collection changes, the classes being read for classification. -/
def App.markArrival (st : AppState) (newId studentId classId date : String)
    (time : Option String) (nowTime nowISO : String) : MarkOutcome × AppState :=
  let r := ArrivalTracker.markArrival st.classes st.arrivals newId studentId classId
    date time nowTime nowISO
  (r.1, { st with arrivals := r.2 })

/-- One ledger mutation, with its impure inputs recorded. -/
inductive LedgerOp where
  | mark (newId studentId classId date : String) (time : Option String)
      (nowTime nowISO : String)
  | remove (studentId date : String)

/-- Apply one ledger operation to the arrival collection. -/
def applyOp (classes : List ClassRec) (arrivals : List Arrival) : LedgerOp → List Arrival
  | .mark nid sid cid d t nt ni =>
    (ArrivalTracker.markArrival classes arrivals nid sid cid d t nt ni).2
  | .remove sid d => (ArrivalTracker.removeArrival sid d arrivals).2

/-- Apply a sequence of ledger operations. -/
def applyOps (classes : List ClassRec) (arrivals : List Arrival)
    (ops : List LedgerOp) : List Arrival :=
  ops.foldl (applyOp classes) arrivals

/-- Number of arrivals recorded for one student-and-date pair. -/
def pairCount (arrivals : List Arrival) (sid d : String) : Nat :=
  (arrivals.filter (fun a => a.studentId == sid && a.date == d)).length

/-- The ledger invariant: at most one arrival per student-and-date pair. -/
def LedgerInv (arrivals : List Arrival) : Prop :=
  ∀ sid d, pairCount arrivals sid d ≤ 1

/-- The default class list the bundled ClassManager seeds when the store
has no classes entry: one class 2AEP, Monday to Saturday 14:30-16:20,
Sunday disabled. The construction timestamp is a parameter. -/
def ClassManager.getDefaultClasses (now : String) : List ClassRec :=
  [{ id := "cls_default", name := "2AEP",
     schedule :=
       [("monday", { enabled := true, startTime := some "14:30", endTime := some "16:20" }),
        ("tuesday", { enabled := true, startTime := some "14:30", endTime := some "16:20" }),
        ("wednesday", { enabled := true, startTime := some "14:30", endTime := some "16:20" }),
        ("thursday", { enabled := true, startTime := some "14:30", endTime := some "16:20" }),
        ("friday", { enabled := true, startTime := some "14:30", endTime := some "16:20" }),
        ("saturday", { enabled := true, startTime := some "14:30", endTime := some "16:20" }),
        ("sunday", { enabled := false })],
     createdAt := now }]

/-- The module ClassManager.load: storage.get("classes", empty-list). The
stored parameter is the parsed classes entry of the store, none when
absent. -/
def ClassManager.loadModule (stored : Option (List ClassRec)) : List ClassRec :=
  stored.getD []

/-- The bundled ClassManager.load: storage.get("classes") (default null)
with a fallback to getDefaultClasses; a stored array is truthy even when
empty, so the fallback fires exactly when the entry is absent. -/
def ClassManager.loadBundled (stored : Option (List ClassRec)) (now : String) :
    List ClassRec :=
  match stored with
  | some cs => cs
  | none => ClassManager.getDefaultClasses now

/-- The module StudentManager.load: storage.get("students", empty-list). -/
def StudentManager.loadModule (stored : Option (List StudentRec)) : List StudentRec :=
  stored.getD []

/-- The default roster the bundled StudentManager seeds, all in the
default class; names as in the bundle. -/
def StudentManager.getDefaultStudents (now : String) : List StudentRec :=
  [{ id := "stu_1", name := "بتيت يوسف", classId := "cls_default", photoUrl := none, createdAt := now },
   { id := "stu_2", name := "الابراهيمي الإدريسي", classId := "cls_default", photoUrl := none, createdAt := now },
   { id := "stu_3", name := "نور الناصيح", classId := "cls_default", photoUrl := none, createdAt := now },
   { id := "stu_4", name := "إسماعيل الخيدر", classId := "cls_default", photoUrl := none, createdAt := now },
   { id := "stu_5", name := "آسية الألوسي", classId := "cls_default", photoUrl := none, createdAt := now },
   { id := "stu_6", name := "مريم العكروط", classId := "cls_default", photoUrl := none, createdAt := now },
   { id := "stu_7", name := "زينب الالوسي", classId := "cls_default", photoUrl := none, createdAt := now },
   { id := "stu_8", name := "هاجر الألوسي", classId := "cls_default", photoUrl := none, createdAt := now },
   { id := "stu_9", name := "إسراء الألوسي", classId := "cls_default", photoUrl := none, createdAt := now },
   { id := "stu_10", name := "هبة الوردي", classId := "cls_default", photoUrl := none, createdAt := now },
   { id := "stu_11", name := "جيداء الناصيح", classId := "cls_default", photoUrl := none, createdAt := now },
   { id := "stu_12", name := "مريم بتيت", classId := "cls_default", photoUrl := none, createdAt := now },
   { id := "stu_13", name := "ملاك ولال", classId := "cls_default", photoUrl := none, createdAt := now },
   { id := "stu_14", name := "علاء الناصيح", classId := "cls_default", photoUrl := none, createdAt := now },
   { id := "stu_15", name := "محمد الالوسي", classId := "cls_default", photoUrl := none, createdAt := now },
   { id := "stu_16", name := "ريم بودة", classId := "cls_default", photoUrl := none, createdAt := now },
   { id := "stu_17", name := "ريان الخيدر", classId := "cls_default", photoUrl := none, createdAt := now },
   { id := "stu_18", name := "امير", classId := "cls_default", photoUrl := none, createdAt := now }]

/-- The bundled StudentManager.load, with the same fallback shape as the
bundled class load. -/
def StudentManager.loadBundled (stored : Option (List StudentRec)) (now : String) :
    List StudentRec :=
  match stored with
  | some ss => ss
  | none => StudentManager.getDefaultStudents now

/-- The bundled copy of getScheduleForDay (character-identical body in the
bundle). -/
def ClassManager.getScheduleForDayBundled (classes : List ClassRec) (classId : String)
    (dayOfWeek : Nat) : Option DayEntry :=
  match ClassManager.getById classes classId with
  | none => none
  | some classObj => schedLookup classObj.schedule (dayNames.getD dayOfWeek "")

/-- The bundled copy of markArrival (character-identical body in the
bundle). -/
def ArrivalTracker.markArrivalBundled (classes : List ClassRec) (arrivals : List Arrival)
    (newId studentId classId date : String) (time : Option String)
    (nowTime nowISO : String) : MarkOutcome × List Arrival :=
  match arrivals.find? (fun a => a.studentId == studentId && a.date == date) with
  | some existing => (.rejected existing, arrivals)
  | none =>
    let arrival := buildArrival classes newId studentId classId date time nowTime nowISO
    (.created arrival, arrivals ++ [arrival])

/-- The average the spec describes for the stats operations: round half
away from zero of the mean of minutesLate over the late entries only, 0
when there are none. -/
def specAvgMinutesLate (l : List Arrival) : Int :=
  let late := l.filter (fun a => a.status == "late")
  if late.length = 0 then 0
  else roundHalfAwayFromZero
    ((((late.map (fun a => a.minutesLate)).sum : Int) : ℚ) / late.length)

/-- The lateness rate the spec describes: round half away from zero of
late over total as a percentage, 0 when the total is 0. -/
def specLatenessRate (l : List Arrival) : Int :=
  if l.length = 0 then 0
  else roundHalfAwayFromZero
    ((100 * ((l.filter (fun a => a.status == "late")).length : ℚ)) / l.length)

/-- The keys of the object literal getStudentStats returns, in source
order: the fields that operation reports. -/
def studentStatsKeys : List String :=
  ["totalArrivals", "onTime", "tardies", "totalMinutesLate", "avgMinutesLate"]

/-- The keys of the object literal getClassStats returns, in source
order: the fields that operation reports. -/
def classStatsKeys : List String :=
  ["totalArrivals", "onTime", "tardies", "latenessRate"]

/-! ## Helper lemmas -/

theorem strData_append (a b : String) : (a ++ b).data = a.data ++ b.data := by
  cases a; cases b; rfl

theorem strMk_data (s : String) : String.mk s.data = s := by
  cases s; rfl

theorem mem_insertByName (le : String → String → Bool) (x a : StudentRow)
    (l : List StudentRow) : a ∈ insertByName le x l ↔ a = x ∨ a ∈ l := by
  induction l with
  | nil => simp [insertByName]
  | cons y ys ih =>
    simp only [insertByName]
    by_cases h : le y.name x.name
    · rw [if_pos h]
      simp only [List.mem_cons, ih]
      tauto
    · rw [if_neg h]
      simp only [List.mem_cons]

theorem mem_sortByName (le : String → String → Bool) (a : StudentRow)
    (l : List StudentRow) : a ∈ sortByName le l ↔ a ∈ l := by
  induction l with
  | nil => simp [sortByName]
  | cons x xs ih =>
    simp [sortByName, mem_insertByName, ih]

theorem foldl_minutes (l : List Arrival) (i : Int) :
    l.foldl (fun sum a => sum + a.minutesLate) i
      = i + (l.map (fun a => a.minutesLate)).sum := by
  induction l generalizing i with
  | nil => simp
  | cons a as ih => simp [ih, add_assoc]

theorem sum_minutes_late_only (l : List Arrival)
    (h : ∀ a ∈ l, a.status ≠ "late" → a.minutesLate = 0) :
    (l.map (fun a => a.minutesLate)).sum
      = ((l.filter (fun a => a.status == "late")).map (fun a => a.minutesLate)).sum := by
  induction l with
  | nil => rfl
  | cons a as ih =>
    have ha := h a (by simp)
    have has : ∀ b ∈ as, b.status ≠ "late" → b.minutesLate = 0 :=
      fun b hb => h b (by simp [hb])
    by_cases hl : a.status = "late"
    · simp [List.filter_cons, hl, ih has]
    · simp [List.filter_cons, hl, ha hl, ih has]

theorem mem_windowAfter (sd : Option String) (l : List Arrival) (a : Arrival)
    (h : a ∈ windowAfter sd l) : a ∈ l := by
  match sd with
  | none => exact h
  | some s =>
    by_cases hs : s == ""
    · rw [windowAfter, if_pos hs] at h
      exact h
    · rw [windowAfter, if_neg hs] at h
      exact (List.mem_filter.mp h).1

theorem mem_windowBefore (ed : Option String) (l : List Arrival) (a : Arrival)
    (h : a ∈ windowBefore ed l) : a ∈ l := by
  match ed with
  | none => exact h
  | some s =>
    by_cases hs : s == ""
    · rw [windowBefore, if_pos hs] at h
      exact h
    · rw [windowBefore, if_neg hs] at h
      exact (List.mem_filter.mp h).1

theorem mem_dateWindow (sd ed : Option String) (l : List Arrival) (a : Arrival)
    (h : a ∈ dateWindow sd ed l) : a ∈ l :=
  mem_windowAfter sd l a (mem_windowBefore ed (windowAfter sd l) a h)

theorem markArrival_found (classes : List ClassRec) (arrivals : List Arrival)
    (nid sid cid d : String) (t : Option String) (nt ni : String) (ex : Arrival)
    (h : arrivals.find? (fun a => a.studentId == sid && a.date == d) = some ex) :
    ArrivalTracker.markArrival classes arrivals nid sid cid d t nt ni
      = (MarkOutcome.rejected ex, arrivals) := by
  simp only [ArrivalTracker.markArrival, h]

theorem markArrival_not_found (classes : List ClassRec) (arrivals : List Arrival)
    (nid sid cid d : String) (t : Option String) (nt ni : String)
    (h : arrivals.find? (fun a => a.studentId == sid && a.date == d) = none) :
    ArrivalTracker.markArrival classes arrivals nid sid cid d t nt ni
      = (MarkOutcome.created (buildArrival classes nid sid cid d t nt ni),
         arrivals ++ [buildArrival classes nid sid cid d t nt ni]) := by
  simp only [ArrivalTracker.markArrival, h]

theorem buildArrival_studentId (classes : List ClassRec) (nid sid cid d : String)
    (t : Option String) (nt ni : String) :
    (buildArrival classes nid sid cid d t nt ni).studentId = sid := rfl

theorem buildArrival_date (classes : List ClassRec) (nid sid cid d : String)
    (t : Option String) (nt ni : String) :
    (buildArrival classes nid sid cid d t nt ni).date = d := rfl

theorem pairCount_append (l1 l2 : List Arrival) (sid d : String) :
    pairCount (l1 ++ l2) sid d = pairCount l1 sid d + pairCount l2 sid d := by
  simp [pairCount, List.filter_append]

theorem pairCount_eq_zero_of_find_none (arrivals : List Arrival) (sid d : String)
    (h : arrivals.find? (fun a => a.studentId == sid && a.date == d) = none) :
    pairCount arrivals sid d = 0 := by
  rw [pairCount, List.length_eq_zero]
  rw [List.find?_eq_none] at h
  exact List.filter_eq_nil_iff.mpr h

theorem removeArrival_sublist (sid d : String) (l : List Arrival) :
    ((ArrivalTracker.removeArrival sid d l).2).Sublist l := by
  induction l with
  | nil => simp [ArrivalTracker.removeArrival]
  | cons a as ih =>
    rw [ArrivalTracker.removeArrival]
    by_cases h : a.studentId == sid && a.date == d
    · rw [if_pos h]
      exact (List.sublist_cons_self a as)
    · rw [if_neg h]
      exact List.Sublist.cons₂ a ih

theorem pairCount_mono_of_sublist (l1 l2 : List Arrival) (sid d : String)
    (h : l1.Sublist l2) : pairCount l1 sid d ≤ pairCount l2 sid d :=
  List.Sublist.length_le (List.Sublist.filter _ h)

theorem ledgerInv_mark (classes : List ClassRec) (arrivals : List Arrival)
    (nid sid cid d : String) (t : Option String) (nt ni : String)
    (hinv : LedgerInv arrivals) :
    LedgerInv (ArrivalTracker.markArrival classes arrivals nid sid cid d t nt ni).2 := by
  cases hfind : arrivals.find? (fun a => a.studentId == sid && a.date == d) with
  | some ex =>
    rw [markArrival_found classes arrivals nid sid cid d t nt ni ex hfind]
    exact hinv
  | none =>
    rw [markArrival_not_found classes arrivals nid sid cid d t nt ni hfind]
    intro sid' d'
    rw [pairCount_append]
    by_cases hpair : sid' = sid ∧ d' = d
    · obtain ⟨rfl, rfl⟩ := hpair
      rw [pairCount_eq_zero_of_find_none arrivals sid' d' hfind]
      simp [pairCount, List.filter_cons, buildArrival_studentId, buildArrival_date]
    · have hone : pairCount [buildArrival classes nid sid cid d t nt ni] sid' d' = 0 := by
        rw [pairCount]
        rw [List.length_eq_zero, List.filter_eq_nil_iff]
        intro b hb
        rw [List.mem_singleton] at hb
        subst hb
        simp only [buildArrival_studentId, buildArrival_date, Bool.and_eq_true, beq_iff_eq]
        intro hc
        exact hpair ⟨hc.1.symm ▸ rfl, hc.2.symm ▸ rfl⟩
      rw [hone]
      exact Nat.le_trans (Nat.le_of_eq (Nat.add_zero _)) (hinv sid' d')

theorem ledgerInv_remove (sid d : String) (arrivals : List Arrival)
    (hinv : LedgerInv arrivals) :
    LedgerInv (ArrivalTracker.removeArrival sid d arrivals).2 := by
  intro sid' d'
  exact Nat.le_trans
    (pairCount_mono_of_sublist _ _ sid' d' (removeArrival_sublist sid d arrivals))
    (hinv sid' d')

theorem ledgerInv_applyOps (classes : List ClassRec) (arrivals : List Arrival)
    (ops : List LedgerOp) (hinv : LedgerInv arrivals) :
    LedgerInv (applyOps classes arrivals ops) := by
  induction ops generalizing arrivals with
  | nil => exact hinv
  | cons op rest ih =>
    rw [applyOps, List.foldl_cons]
    apply ih
    cases op with
    | mark nid sid cid dt t nt ni => exact ledgerInv_mark classes arrivals nid sid cid dt t nt ni hinv
    | remove sid dt => exact ledgerInv_remove sid dt arrivals hinv

theorem map_replace_eq_of_keys_ne {V : Type} (l : Store V) (k : String) (v : V)
    (h : ∀ q ∈ l, q.1 ≠ k) :
    l.map (fun p => if p.1 == k then (k, v) else p) = l := by
  induction l with
  | nil => rfl
  | cons q rest ih =>
    have hq : (q.1 == k) = false := beq_eq_false_iff_ne.mpr (h q (by simp))
    simp only [List.map_cons, hq, Bool.false_eq_true, if_false]
    rw [ih (fun p hp => h p (by simp [hp]))]

theorem setItem_mem_self {V : Type} (st : Store V) (k : String) (v : V)
    (hmem : (k, v) ∈ st) (hnd : (st.map Prod.fst).Nodup) :
    Store.setItem st k v = st := by
  rw [Store.setItem, if_pos (List.any_eq_true.mpr ⟨(k, v), hmem, by simp⟩)]
  induction st with
  | nil => rfl
  | cons q rest ih =>
    rw [List.map_cons, List.nodup_cons] at hnd
    rcases List.mem_cons.mp hmem with hq | hrest
    · subst hq
      simp only [List.map_cons, beq_self_eq_true, if_true]
      congr 1
      apply map_replace_eq_of_keys_ne
      intro p hp hpk
      have hmem2 : p.1 ∈ rest.map Prod.fst := List.mem_map_of_mem Prod.fst hp
      rw [hpk] at hmem2
      exact hnd.1 hmem2
    · have hk : k ∈ rest.map Prod.fst := List.mem_map_of_mem Prod.fst hrest
      have hqk : (q.1 == k) = false := by
        apply beq_eq_false_iff_ne.mpr
        intro hqe
        exact hnd.1 (by rw [hqe]; exact hk)
      simp only [List.map_cons, hqk, Bool.false_eq_true, if_false]
      rw [ih hrest hnd.2]

theorem fullKey_dropLeading (k : String) (h : strStartsWith nsC k = true) :
    Storage.fullKey (strDropLeading nsC k) = k := by
  rw [strStartsWith] at h
  obtain ⟨t, ht⟩ := List.isPrefixOf_iff_prefix.mp h
  have hdrop : strDropLeading nsC k = ⟨t⟩ := by
    rw [strDropLeading, ← ht, List.drop_left]
  rw [hdrop, Storage.fullKey]
  have h2 : (nsC ++ (⟨t⟩ : String)).data = k.data := by
    have h3 : ((⟨t⟩ : String)).data = t := rfl
    rw [strData_append, h3, ht]
  exact (strMk_data _).symm.trans ((congrArg String.mk h2).trans (strMk_data k))

theorem importAll_id {V : Type} (st : Store V) (data : List (String × V))
    (h : ∀ kv ∈ data, Store.setItem st (Storage.fullKey kv.1) kv.2 = st) :
    Storage.importAll (fun _ => true) st data = st := by
  induction data with
  | nil => rfl
  | cons kv rest ih =>
    rw [Storage.importAll, List.foldl_cons]
    have hset : (Storage.set (fun _ => true) st kv.1 kv.2).1 = st := by
      rw [Storage.set, if_pos rfl]
      exact h kv (by simp)
    rw [hset]
    exact ih (fun p hp => h p (by simp [hp]))

theorem importAll_no_writes {V : Type} (st : Store V) (data : List (String × V)) :
    Storage.importAll (fun _ => false) st data = st := by
  induction data with
  | nil => rfl
  | cons kv rest ih =>
    rw [Storage.importAll, List.foldl_cons]
    rw [show (Storage.set (fun _ => false) st kv.1 kv.2).1 = st from rfl]
    exact ih

theorem exportAll_pairs {V : Type} (st : Store V) (kv : String × V)
    (h : kv ∈ Storage.exportAll st) :
    (Storage.fullKey kv.1, kv.2) ∈ st := by
  rw [Storage.exportAll] at h
  obtain ⟨p, hp, hkv⟩ := List.mem_map.mp h
  obtain ⟨hpmem, hppre⟩ := List.mem_filter.mp hp
  rw [← hkv]
  have hfk : Storage.fullKey (strDropLeading nsC p.1) = p.1 := fullKey_dropLeading p.1 hppre
  simpa [hfk] using hpmem

/-! ## Claims -/

/-- Claim C1. The claim says that add without a supplied schedule creates a
Class carrying the default weekly schedule. The code disagrees: the default
parameter is an empty object, which is truthy, so the defaultSchedule
fallback is dead for that call and the created class has an empty schedule
object, under which every weekday lookup misses; the fallback fires only
when null is passed explicitly. This theorem evaluates the code at the
failing input. -/
theorem C1_add_without_schedule_is_empty :
    (ClassManager.add [] "cls_1" "1AEP" "t0" none).1.schedule = [] ∧
    ClassManager.defaultSchedule ≠ [] ∧
    ClassManager.getScheduleForDay (ClassManager.add [] "cls_1" "1AEP" "t0" none).2
      "cls_1" 1 = none ∧
    (ClassManager.add [] "cls_1" "1AEP" "t0" (some none)).1.schedule
      = ClassManager.defaultSchedule := by
  refine ⟨rfl, ?_, rfl, rfl⟩
  decide

/-- Claim C5, counterexample. Loading classes from an empty store differs
between the two copies: the module load yields the empty list, the bundled
load seeds the default class list. -/
theorem C5_load_counterexample :
    ClassManager.loadBundled none "t0" ≠ ClassManager.loadModule none := by
  decide

/-- Claim C5, amended: the two copies agree operation by operation
(witnessed here for the cited operations: the day-schedule lookup and the
arrival marking, whose bundled bodies are character-identical), and their
class and student loads agree whenever the store holds a stored list; the
sole divergence is the load from a store with no entry, where the bundled
copy seeds default data. -/
theorem C5_bundled_module_agree :
    (∀ (l : List ClassRec) (now : String),
      ClassManager.loadBundled (some l) now = ClassManager.loadModule (some l)) ∧
    (∀ (l : List StudentRec) (now : String),
      StudentManager.loadBundled (some l) now = StudentManager.loadModule (some l)) ∧
    (∀ (classes : List ClassRec) (cid : String) (d : Nat),
      ClassManager.getScheduleForDayBundled classes cid d
        = ClassManager.getScheduleForDay classes cid d) ∧
    (∀ (classes : List ClassRec) (arrivals : List Arrival)
        (nid sid cid date : String) (t : Option String) (nt ni : String),
      ArrivalTracker.markArrivalBundled classes arrivals nid sid cid date t nt ni
        = ArrivalTracker.markArrival classes arrivals nid sid cid date t nt ni) :=
  ⟨fun _ _ => rfl, fun _ _ => rfl, fun _ _ _ => rfl,
   fun _ _ _ _ _ _ _ _ _ => rfl⟩

/-- Claim C6, counterexample. A class whose schedule object has no entry
for the requested day (exactly what add produces for a class created
without a schedule) exists, yet getScheduleForDay returns null, so a null
result does not imply that the class is unknown. -/
theorem C6_null_not_only_for_unknown_class :
    ¬ ((ClassManager.getScheduleForDay [⟨"c1", "X", [], "t0"⟩] "c1" 1 = none) ↔
       (ClassManager.getById [⟨"c1", "X", [], "t0"⟩] "c1" = none)) := by
  decide

/-- Claim C6, amended: for day indices 0-6, getScheduleForDay is null
exactly when the class is unknown or the class's schedule object lacks an
entry under that day's name; when the class exists and the entry is
present (for example a disabled entry on a closed day) that entry is
returned. -/
theorem C6_getScheduleForDay_characterization (classes : List ClassRec)
    (classId : String) (d : Nat) (_hd : d ≤ 6) :
    (ClassManager.getScheduleForDay classes classId d = none ↔
      ClassManager.getById classes classId = none ∨
      ∃ c, ClassManager.getById classes classId = some c ∧
        schedLookup c.schedule (dayNames.getD d "") = none) ∧
    (∀ c e, ClassManager.getById classes classId = some c →
      schedLookup c.schedule (dayNames.getD d "") = some e →
      ClassManager.getScheduleForDay classes classId d = some e) := by
  clear _hd
  constructor
  · cases hby : ClassManager.getById classes classId with
    | none => simp [ClassManager.getScheduleForDay, hby]
    | some c =>
      simp only [ClassManager.getScheduleForDay, hby]
      constructor
      · intro hnone
        exact Or.inr ⟨c, rfl, hnone⟩
      · rintro (hc | ⟨c2, hc2, hl⟩)
        · exact absurd hc (by simp)
        · rw [← Option.some_inj.mp hc2] at hl
          exact hl
  · intro c e hby hl
    simp only [ClassManager.getScheduleForDay, hby]
    exact hl

/-- Claim C6, amended, witness: a concrete registry where the class exists
and Sunday is present but disabled, so the disabled entry (not null) is
returned, while a missing class still gives null. -/
theorem C6_getScheduleForDay_witness :
    (0 : Nat) ≤ 6 ∧
    (ClassManager.getScheduleForDay
        [⟨"c1", "X", ClassManager.defaultSchedule, "t0"⟩] "c1" 0
      = some { enabled := false }) := by
  constructor
  · decide
  · exact (C6_getScheduleForDay_characterization
      [⟨"c1", "X", ClassManager.defaultSchedule, "t0"⟩] "c1" 0 (by decide)).2
      ⟨"c1", "X", ClassManager.defaultSchedule, "t0"⟩ { enabled := false }
      (by decide) (by decide)

/-- Claim C8: export followed by import reproduces the store unchanged
(hence in particular the classes, students and arrivals entries), given
the localStorage well-formedness fact that keys are unique. -/
theorem C8_export_import_roundtrip {V : Type} (st : Store V)
    (hnd : (st.map Prod.fst).Nodup) :
    Storage.importAll (fun _ => true) st (Storage.exportAll st) = st := by
  apply importAll_id
  intro kv hkv
  exact setItem_mem_self st (Storage.fullKey kv.1) kv.2 (exportAll_pairs st kv hkv) hnd

/-- Claim C8, witness: the round-trip evaluated on a concrete store
holding classes, students and arrivals entries plus a foreign key. -/
theorem C8_export_import_roundtrip_witness :
    ((([("lateness-tracker:classes", 1), ("lateness-tracker:students", 2),
        ("lateness-tracker:arrivals", 3), ("other", 4)] : Store Nat).map Prod.fst).Nodup) ∧
    Storage.importAll (fun _ => true)
        ([("lateness-tracker:classes", 1), ("lateness-tracker:students", 2),
          ("lateness-tracker:arrivals", 3), ("other", 4)] : Store Nat)
        (Storage.exportAll
          ([("lateness-tracker:classes", 1), ("lateness-tracker:students", 2),
            ("lateness-tracker:arrivals", 3), ("other", 4)] : Store Nat))
      = [("lateness-tracker:classes", 1), ("lateness-tracker:students", 2),
         ("lateness-tracker:arrivals", 3), ("other", 4)] :=
  ⟨by decide, C8_export_import_roundtrip _ (by decide)⟩

/-- Claim C9: updating a class (including replacing its whole schedule)
leaves the arrival ledger untouched; later ledger operations never modify
an existing arrival record — marking appends only, removal deletes
records without changing the survivors — so the status and minutesLate
frozen at creation are never recomputed. -/
theorem C9_arrivals_frozen :
    (∀ (st : AppState) (id : String) (u : ClassUpdates),
      (App.updateClass st id u).2.arrivals = st.arrivals) ∧
    (∀ (st : AppState) (nid sid cid d : String) (t : Option String) (nt ni : String),
      ∃ tail, (App.markArrival st nid sid cid d t nt ni).2.arrivals
        = st.arrivals ++ tail) ∧
    (∀ (sid d : String) (arrivals : List Arrival),
      ((ArrivalTracker.removeArrival sid d arrivals).2).Sublist arrivals) := by
  refine ⟨fun _ _ _ => rfl, ?_, fun sid d arrivals => removeArrival_sublist sid d arrivals⟩
  intro st nid sid cid d t nt ni
  cases hfind : st.arrivals.find? (fun a => a.studentId == sid && a.date == d) with
  | some ex =>
    refine ⟨[], ?_⟩
    rw [List.append_nil]
    show (ArrivalTracker.markArrival st.classes st.arrivals nid sid cid d t nt ni).2
      = st.arrivals
    rw [markArrival_found st.classes st.arrivals nid sid cid d t nt ni ex hfind]
  | none =>
    refine ⟨[buildArrival st.classes nid sid cid d t nt ni], ?_⟩
    show (ArrivalTracker.markArrival st.classes st.arrivals nid sid cid d t nt ni).2
      = st.arrivals ++ [buildArrival st.classes nid sid cid d t nt ni]
    rw [markArrival_not_found st.classes st.arrivals nid sid cid d t nt ni hfind]

/-- Claim C10, counterexample. The payload string "null" parses as JSON
(to the value null), yet importJSON reports success false with the store
unchanged: Object.entries(null) throws inside the try before any write
and the catch converts the TypeError to the structured failure. So a
parse success does not always yield a success report. -/
theorem C10_null_payload_reports_failure :
    ReportGenerator.importJSON (fun _ => true) ([] : Store Nat) ParsedJson.jsNull "msg"
      = ({ success := false, error := some "msg" }, []) := by
  rfl

/-- Claim C10, amended: importJSON reports success whenever its string
argument parses as JSON to a value other than null (a null payload
throws inside the try and is reported as a structured failure with the
store unchanged); for every such payload the boolean results of set()
during importAll are discarded, so with a store rejecting every write
the result is still success and the store is unchanged. -/
theorem C10_import_success_ignores_write_failures {V : Type}
    (canWrite : String → Bool) (st : Store V) (data : List (String × V))
    (errMsg : String) :
    ((ReportGenerator.importJSON canWrite st (ParsedJson.entries data) errMsg).1.success
      = true) ∧
    (ReportGenerator.importJSON (fun _ => false) st (ParsedJson.entries data) errMsg
      = ({ success := true, error := none }, st)) ∧
    (ReportGenerator.importJSON canWrite st (ParsedJson.jsNull) errMsg
      = ({ success := false, error := some errMsg }, st)) := by
  refine ⟨rfl, ?_, rfl⟩
  rw [ReportGenerator.importJSON, importAll_no_writes]

/-- Claim C2: with an explicit arrival time and an enabled schedule entry
carrying a start time for the arrival's weekday, markArrival records
minutesLate as max 0 of the minute difference and classifies late exactly
when that is positive; an arrival at or before the start is on-time with
0, an arrival after it is late by exactly the difference. -/
theorem C2_lateness_formula (classes : List ClassRec) (arrivals : List Arrival)
    (nid sid cid date T S nt ni : String) (e : DayEntry) (sm tm : Int)
    (hfind : arrivals.find? (fun a => a.studentId == sid && a.date == date) = none)
    (hsched : ClassManager.getScheduleForDay classes cid (dayOfWeekOf date) = some e)
    (hen : e.enabled = true) (hst : e.startTime = some S)
    (hS : clockToMinutes S = some sm) (hT : clockToMinutes T = some tm) :
    ∃ a : Arrival,
      ArrivalTracker.markArrival classes arrivals nid sid cid date (some T) nt ni
        = (MarkOutcome.created a, arrivals ++ [a]) ∧
      a.minutesLate = max 0 (tm - sm) ∧
      (a.status = "late" ↔ 0 < a.minutesLate) ∧
      (tm ≤ sm → a.status = "on-time" ∧ a.minutesLate = 0) ∧
      (sm < tm → a.minutesLate = tm - sm ∧ a.status = "late") := by
  have hTne : ¬ (T = "") := by
    intro h
    rw [h, show clockToMinutes "" = none from rfl] at hT
    exact Option.noConfusion hT
  have hSne : ¬ (S = "") := by
    intro h
    rw [h, show clockToMinutes "" = none from rfl] at hS
    exact Option.noConfusion hS
  have hres : resolveTime (some T) nt = T := by
    rw [resolveTime, if_neg (by simpa using hTne)]
  have htr : (e.enabled && truthyOptStr e.startTime) = true := by
    rw [hen, hst, truthyOptStr]
    simpa using hSne
  have hcl : computeLateness classes cid date T
      = (max 0 (tm - sm), if 0 < max 0 (tm - sm) then "late" else "on-time") := by
    simp only [computeLateness, hsched, htr, if_true, hst, hS, hT]
    rw [if_pos (by rw [hen, truthyOptStr]; simpa using hSne)]
  have hb : buildArrival classes nid sid cid date (some T) nt ni
      = { id := nid, studentId := sid, classId := cid, date := date, time := T,
          minutesLate := max 0 (tm - sm),
          status := if 0 < max 0 (tm - sm) then "late" else "on-time",
          createdAt := ni } := by
    rw [buildArrival]
    rw [hres, hcl]
  refine ⟨buildArrival classes nid sid cid date (some T) nt ni,
    markArrival_not_found classes arrivals nid sid cid date (some T) nt ni hfind,
    ?_, ?_, ?_, ?_⟩
  · rw [hb]
  · rw [hb]
    constructor
    · intro hlate
      by_contra hn
      simp only [not_lt] at hn
      have hml : max 0 (tm - sm) = 0 := by omega
      rw [hml] at hlate
      simp at hlate
    · intro hpos
      have hml : (0 : Int) < max 0 (tm - sm) := by
        by_contra hn
        simp only [not_lt] at hn
        have : max 0 (tm - sm) = 0 := le_antisymm hn (le_max_left 0 (tm - sm))
        rw [this] at hpos
        exact absurd hpos (lt_irrefl 0)
      rw [if_pos hml]
  · intro hle
    rw [hb]
    have hml : max 0 (tm - sm) = 0 := by omega
    constructor
    · rw [hml]
      rfl
    · exact hml
  · intro hlt
    rw [hb]
    have hml : max 0 (tm - sm) = tm - sm := by omega
    constructor
    · exact hml
    · rw [hml, if_pos (by omega)]

/-- Claim C2, witness: a Monday class starting 12:30 and an arrival at
12:45 on a Monday date, marked on an empty ledger. -/
theorem C2_lateness_formula_witness :
    ([] : List Arrival).find? (fun a => a.studentId == "s1" && a.date == "2024-03-04")
        = none ∧
    ClassManager.getScheduleForDay [⟨"c1", "1A", ClassManager.defaultSchedule, "t0"⟩]
        "c1" (dayOfWeekOf "2024-03-04")
      = some { enabled := true, startTime := some "12:30", endTime := some "14:20" } ∧
    clockToMinutes "12:30" = some 750 ∧
    clockToMinutes "12:45" = some 765 ∧
    ∃ a : Arrival,
      ArrivalTracker.markArrival [⟨"c1", "1A", ClassManager.defaultSchedule, "t0"⟩]
          [] "a1" "s1" "c1" "2024-03-04" (some "12:45") "09:00" "t1"
        = (MarkOutcome.created a, [] ++ [a]) ∧
      a.minutesLate = max 0 (765 - 750) ∧
      (a.status = "late" ↔ 0 < a.minutesLate) ∧
      ((765 : Int) ≤ 750 → a.status = "on-time" ∧ a.minutesLate = 0) ∧
      ((750 : Int) < 765 → a.minutesLate = 765 - 750 ∧ a.status = "late") :=
  ⟨rfl, by decide, by decide, by decide,
   C2_lateness_formula [⟨"c1", "1A", ClassManager.defaultSchedule, "t0"⟩] []
     "a1" "s1" "c1" "2024-03-04" "12:45" "12:30" "09:00" "t1"
     { enabled := true, startTime := some "12:30", endTime := some "14:20" } 750 765
     rfl (by decide) rfl rfl (by decide) (by decide)⟩

/-- Claim C3: every sequence of ledger operations preserves the
at-most-one-arrival-per-student-and-date invariant; marking an already
recorded pair returns the structured rejection carrying the existing
record with the ledger untouched; and after a successful mark, a second
mark of the same pair (with any arguments) is rejected with exactly the
first created record, leaves the ledger exactly as the first call left
it, and exactly one arrival for the pair remains. -/
theorem C3_pair_uniqueness :
    (∀ (classes : List ClassRec) (arrivals : List Arrival) (ops : List LedgerOp),
      LedgerInv arrivals → LedgerInv (applyOps classes arrivals ops)) ∧
    (∀ (classes : List ClassRec) (arrivals : List Arrival)
        (nid sid cid d : String) (t : Option String) (nt ni : String) (ex : Arrival),
      arrivals.find? (fun a => a.studentId == sid && a.date == d) = some ex →
      ArrivalTracker.markArrival classes arrivals nid sid cid d t nt ni
        = (MarkOutcome.rejected ex, arrivals)) ∧
    (∀ (classes : List ClassRec) (arrivals : List Arrival)
        (nid sid cid d : String) (t : Option String) (nt ni : String)
        (nid2 cid2 : String) (t2 : Option String) (nt2 ni2 : String),
      arrivals.find? (fun a => a.studentId == sid && a.date == d) = none →
      ∃ a : Arrival,
        ArrivalTracker.markArrival classes arrivals nid sid cid d t nt ni
          = (MarkOutcome.created a, arrivals ++ [a]) ∧
        ArrivalTracker.markArrival classes (arrivals ++ [a]) nid2 sid cid2 d t2 nt2 ni2
          = (MarkOutcome.rejected a, arrivals ++ [a]) ∧
        pairCount (arrivals ++ [a]) sid d = 1) := by
  refine ⟨fun classes arrivals ops h => ledgerInv_applyOps classes arrivals ops h,
    fun classes arrivals nid sid cid d t nt ni ex h =>
      markArrival_found classes arrivals nid sid cid d t nt ni ex h, ?_⟩
  intro classes arrivals nid sid cid d t nt ni nid2 cid2 t2 nt2 ni2 hfind
  refine ⟨buildArrival classes nid sid cid d t nt ni,
    markArrival_not_found classes arrivals nid sid cid d t nt ni hfind, ?_, ?_⟩
  · apply markArrival_found
    rw [List.find?_append, hfind, Option.none_or]
    have hpred : ((buildArrival classes nid sid cid d t nt ni).studentId == sid
        && (buildArrival classes nid sid cid d t nt ni).date == d) = true := by
      rw [buildArrival_studentId, buildArrival_date]
      simp
    simp [List.find?, hpred]
  · rw [pairCount_append, pairCount_eq_zero_of_find_none arrivals sid d hfind]
    rw [pairCount]
    have hpred : ((buildArrival classes nid sid cid d t nt ni).studentId == sid
        && (buildArrival classes nid sid cid d t nt ni).date == d) = true := by
      rw [buildArrival_studentId, buildArrival_date]
      simp
    simp [List.filter, hpred]

/-- Claim C3, witness: a concrete empty-ledger run: the invariant holds
for the empty ledger and is preserved by a mark-then-remove sequence, a
pre-populated ledger rejects, and the double-mark scenario on the empty
ledger leaves exactly one record. -/
theorem C3_pair_uniqueness_witness :
    (LedgerInv (applyOps [] []
      [LedgerOp.mark "a1" "s1" "c1" "2024-03-04" (some "12:45") "09:00" "t1",
       LedgerOp.remove "s1" "2024-03-04"])) ∧
    (ArrivalTracker.markArrival [] [⟨"a0", "s1", "c1", "2024-03-04", "12:45", 15, "late", "t0"⟩]
        "a1" "s1" "c1" "2024-03-04" (some "13:00") "09:00" "t1"
      = (MarkOutcome.rejected ⟨"a0", "s1", "c1", "2024-03-04", "12:45", 15, "late", "t0"⟩,
         [⟨"a0", "s1", "c1", "2024-03-04", "12:45", 15, "late", "t0"⟩])) ∧
    (∃ a : Arrival,
      ArrivalTracker.markArrival [] [] "a1" "s1" "c1" "2024-03-04" (some "12:45") "09:00" "t1"
        = (MarkOutcome.created a, [] ++ [a]) ∧
      ArrivalTracker.markArrival [] ([] ++ [a]) "a2" "s1" "c2" "2024-03-04" (some "13:00") "10:00" "t2"
        = (MarkOutcome.rejected a, [] ++ [a]) ∧
      pairCount ([] ++ [a]) "s1" "2024-03-04" = 1) := by
  refine ⟨?_, ?_, ?_⟩
  · apply C3_pair_uniqueness.1
    intro sid d
    simp [pairCount]
  · exact C3_pair_uniqueness.2.1 [] _ "a1" "s1" "c1" "2024-03-04" (some "13:00") "09:00" "t1"
      ⟨"a0", "s1", "c1", "2024-03-04", "12:45", 15, "late", "t0"⟩ (by decide)
  · exact C3_pair_uniqueness.2.2 [] [] "a1" "s1" "c1" "2024-03-04" (some "12:45") "09:00" "t1"
      "a2" "c2" (some "13:00") "10:00" "t2" rfl

/-- Claim C4: for any year (in the four-digit range the date strings
assume) and month 1-12, the report window's end date is the last calendar
day of that month, month lengths and leap years included (2024-02 ends on
the 29th); and every per-arrival detail in every student row of a
generated report has its date inside the inclusive window, so an arrival
dated outside it appears in no row — checked concretely for an arrival
dated 2024-03-01 against the February 2024 report. -/
theorem C4_monthly_report_window :
    (∀ y m, 1 ≤ m → m ≤ 12 → 1000 ≤ y → y ≤ 9999 →
      ReportGenerator.endDateOf y m
        = natToString y ++ "-" ++ pad2 m ++ "-" ++ pad2 (daysInMonth y m)) ∧
    ReportGenerator.endDateOf 2024 2 = "2024-02-29" ∧
    (∀ (le : String → String → Bool) (classes : List ClassRec)
        (students : List StudentRec) (arrivals : List Arrival)
        (classId : String) (y m : Nat) (r : MonthlyReport),
      ReportGenerator.generateMonthlyReport le classes students arrivals classId y m
        = some r →
      ∀ row ∈ r.students, ∀ det ∈ row.arrivals,
        strLeJs (ReportGenerator.startDateOf y m) det.date = true ∧
        strLeJs det.date (ReportGenerator.endDateOf y m) = true) ∧
    (ReportGenerator.generateMonthlyReport (fun _ _ => true)
        [⟨"c1", "1A", ClassManager.defaultSchedule, "t0"⟩]
        [⟨"s1", "Amal", "c1", none, "t0"⟩]
        [⟨"a1", "s1", "c1", "2024-03-01", "12:40", 10, "late", "t0"⟩]
        "c1" 2024 2
      = some ⟨"c1", "1A", 2024, 2, [⟨"s1", "Amal", none, 0, 0, 0, 0, 0, []⟩]⟩) := by
  refine ⟨?_, by decide, ?_, by decide⟩
  · intro y m h1 h2 h3 h4
    simp only [ReportGenerator.endDateOf]
    have hm : m = 12 ∨ m < 12 := by omega
    rcases hm with rfl | hlt
    · have hjs : jsDateMonthDay0 y 12 = (y, 12, 31) := by
        simp only [jsDateMonthDay0]
        norm_num
      have hdm : daysInMonth y 12 = 31 := by rw [daysInMonth]; norm_num
      rw [hjs, hdm, pad4]
      rw [if_neg (by omega), if_neg (by omega), if_neg (by omega)]
    · have hjs : jsDateMonthDay0 y m = (y, m, daysInMonth y m) := by
        simp only [jsDateMonthDay0]
        rw [Nat.mod_eq_of_lt hlt, Nat.div_eq_of_lt hlt]
        rw [if_neg (by omega)]
        norm_num
      rw [hjs, pad4]
      rw [if_neg (by omega), if_neg (by omega), if_neg (by omega)]
  · intro le classes students arrivals classId y m r hr row hrow det hdet
    cases hby : ClassManager.getById classes classId with
    | none =>
      rw [ReportGenerator.generateMonthlyReport, hby] at hr
      exact absurd hr (by simp)
    | some classObj =>
      simp only [ReportGenerator.generateMonthlyReport, hby, Option.some_inj] at hr
      rw [← hr] at hrow
      simp only [] at hrow
      rw [mem_sortByName] at hrow
      obtain ⟨student, hstu, hrowdef⟩ := List.mem_map.mp hrow
      rw [← hrowdef] at hdet
      simp only [] at hdet
      obtain ⟨a, ha, hdetdef⟩ := List.mem_map.mp hdet
      have hconds := (List.mem_filter.mp ha).2
      rw [Bool.and_eq_true, Bool.and_eq_true] at hconds
      rw [← hdetdef]
      exact ⟨hconds.1.2, hconds.2⟩

/-- Claim C4, witness: the window facts instantiated at February 2024 and
at the concrete report generated there, whose rows contain no detail for
the out-of-window arrival dated 2024-03-01. -/
theorem C4_monthly_report_window_witness :
    ReportGenerator.generateMonthlyReport (fun _ _ => true)
        [⟨"c1", "1A", ClassManager.defaultSchedule, "t0"⟩]
        [⟨"s1", "Amal", "c1", none, "t0"⟩]
        [⟨"a1", "s1", "c1", "2024-03-01", "12:40", 10, "late", "t0"⟩]
        "c1" 2024 2
      = some ⟨"c1", "1A", 2024, 2, [⟨"s1", "Amal", none, 0, 0, 0, 0, 0, []⟩]⟩ ∧
    (∀ row ∈ (⟨"c1", "1A", 2024, 2, [⟨"s1", "Amal", none, 0, 0, 0, 0, 0, []⟩]⟩ :
        MonthlyReport).students,
      ∀ det ∈ row.arrivals,
        strLeJs (ReportGenerator.startDateOf 2024 2) det.date = true ∧
        strLeJs det.date (ReportGenerator.endDateOf 2024 2) = true) ∧
    ((1 : Nat) ≤ 2 ∧ (2 : Nat) ≤ 12 ∧ (1000 : Nat) ≤ 2024 ∧ (2024 : Nat) ≤ 9999) ∧
    ReportGenerator.endDateOf 2024 2
      = natToString 2024 ++ "-" ++ pad2 2 ++ "-" ++ pad2 (daysInMonth 2024 2) := by
  refine ⟨C4_monthly_report_window.2.2.2, ?_,
    ⟨by decide, by decide, by decide, by decide⟩,
    C4_monthly_report_window.1 2024 2 (by decide) (by decide) (by decide) (by decide)⟩
  exact C4_monthly_report_window.2.2.1 (fun _ _ => true) _ _ _ "c1" 2024 2 _
    C4_monthly_report_window.2.2.2

theorem avg_code_eq_spec (fs : List Arrival)
    (hinv : ∀ a ∈ fs, a.status ≠ "late" → a.minutesLate = 0)
    (hnn : ∀ a ∈ fs, 0 ≤ a.minutesLate) :
    (if 0 < (fs.filter (fun a => a.status == "late")).length
     then jsRoundQ (((fs.foldl (fun sum a => sum + a.minutesLate) 0 : Int) : ℚ)
        / (((fs.filter (fun a => a.status == "late")).length : Nat) : ℚ))
     else 0) = specAvgMinutesLate fs := by
  rw [specAvgMinutesLate]
  by_cases hL : (fs.filter (fun a => a.status == "late")).length = 0
  · rw [if_pos hL, if_neg (by omega)]
  · rw [if_neg hL, if_pos (by omega)]
    have hSall : fs.foldl (fun sum a => sum + a.minutesLate) 0
        = ((fs.filter (fun a => a.status == "late")).map (fun a => a.minutesLate)).sum := by
      rw [foldl_minutes, zero_add]
      exact sum_minutes_late_only fs hinv
    have hSnn : (0 : Int)
        ≤ ((fs.filter (fun a => a.status == "late")).map (fun a => a.minutesLate)).sum := by
      apply List.sum_nonneg
      intro x hx
      obtain ⟨a, ha, hax⟩ := List.mem_map.mp hx
      rw [← hax]
      exact hnn a (List.mem_filter.mp ha).1
    rw [hSall, jsRoundQ, roundHalfAwayFromZero, if_pos ?_]
    apply div_nonneg
    · exact_mod_cast hSnn
    · exact Nat.cast_nonneg _

theorem rate_code_eq_spec (cf : List Arrival) :
    (if 0 < cf.length
     then jsRoundQ ((((cf.filter (fun a => a.status == "late")).length : Nat) : ℚ)
        / ((cf.length : Nat) : ℚ) * 100)
     else 0) = specLatenessRate cf := by
  rw [specLatenessRate]
  by_cases hT : cf.length = 0
  · rw [if_pos hT, if_neg (by omega)]
  · rw [if_neg hT, if_pos (by omega)]
    rw [jsRoundQ, roundHalfAwayFromZero, if_pos ?_]
    · congr 1
      ring
    · apply div_nonneg
      · positivity
      · exact Nat.cast_nonneg _

/-- Claim C7, counterexample. The claim attributes an avgMinutesLate
report to getClassStats as well, but the object literal getClassStats
returns carries no avgMinutesLate key at all, while getStudentStats does
report one. -/
theorem C7_classStats_reports_no_avg :
    "avgMinutesLate" ∈ studentStatsKeys ∧ "avgMinutesLate" ∉ classStatsKeys := by
  decide

/-- Claim C7, amended: getClassStats reports no avgMinutesLate field; on
a ledger satisfying the creation-time invariant (a non-late record
carries zero minutes late, minutes late nonnegative), getStudentStats
reports avgMinutesLate as the round-half-away-from-zero average of
minutesLate over the late entries of the filtered window only (0 with no
late entries), and getClassStats reports latenessRate as the
round-half-away-from-zero percentage of late over total (0 for an empty
window). -/
theorem C7_stats_rounding (arrivals : List Arrival) (sid cid : String)
    (sd ed : Option String)
    (hinv : ∀ a ∈ arrivals, a.status ≠ "late" → a.minutesLate = 0)
    (hnn : ∀ a ∈ arrivals, 0 ≤ a.minutesLate) :
    (ArrivalTracker.getStudentStats arrivals sid sd ed).avgMinutesLate
      = specAvgMinutesLate
          (dateWindow sd ed (arrivals.filter (fun a => a.studentId == sid))) ∧
    (ArrivalTracker.getClassStats arrivals cid sd ed).latenessRate
      = specLatenessRate
          (dateWindow sd ed (arrivals.filter (fun a => a.classId == cid))) := by
  constructor
  · have hsub : ∀ a ∈ dateWindow sd ed (arrivals.filter (fun a => a.studentId == sid)),
        a ∈ arrivals := fun a ha =>
      (List.mem_filter.mp (mem_dateWindow sd ed _ a ha)).1
    exact avg_code_eq_spec _ (fun a ha => hinv a (hsub a ha)) (fun a ha => hnn a (hsub a ha))
  · exact rate_code_eq_spec _

/-- Claim C7, witness: the stats evaluated on a concrete ledger with two
late arrivals of 15 and 25 minutes and one on-time arrival. -/
theorem C7_stats_rounding_witness :
    (∀ a ∈ ([⟨"a1", "s1", "c1", "2024-03-04", "12:45", 15, "late", "t"⟩,
             ⟨"a2", "s1", "c1", "2024-03-05", "12:55", 25, "late", "t"⟩,
             ⟨"a3", "s1", "c1", "2024-03-06", "12:20", 0, "on-time", "t"⟩] : List Arrival),
        a.status ≠ "late" → a.minutesLate = 0) ∧
    (∀ a ∈ ([⟨"a1", "s1", "c1", "2024-03-04", "12:45", 15, "late", "t"⟩,
             ⟨"a2", "s1", "c1", "2024-03-05", "12:55", 25, "late", "t"⟩,
             ⟨"a3", "s1", "c1", "2024-03-06", "12:20", 0, "on-time", "t"⟩] : List Arrival),
        (0 : Int) ≤ a.minutesLate) ∧
    (ArrivalTracker.getStudentStats
        [⟨"a1", "s1", "c1", "2024-03-04", "12:45", 15, "late", "t"⟩,
         ⟨"a2", "s1", "c1", "2024-03-05", "12:55", 25, "late", "t"⟩,
         ⟨"a3", "s1", "c1", "2024-03-06", "12:20", 0, "on-time", "t"⟩]
        "s1" none none).avgMinutesLate
      = specAvgMinutesLate
          (dateWindow none none
            (([⟨"a1", "s1", "c1", "2024-03-04", "12:45", 15, "late", "t"⟩,
               ⟨"a2", "s1", "c1", "2024-03-05", "12:55", 25, "late", "t"⟩,
               ⟨"a3", "s1", "c1", "2024-03-06", "12:20", 0, "on-time", "t"⟩] : List Arrival).filter
              (fun a => a.studentId == "s1"))) ∧
    (ArrivalTracker.getClassStats
        [⟨"a1", "s1", "c1", "2024-03-04", "12:45", 15, "late", "t"⟩,
         ⟨"a2", "s1", "c1", "2024-03-05", "12:55", 25, "late", "t"⟩,
         ⟨"a3", "s1", "c1", "2024-03-06", "12:20", 0, "on-time", "t"⟩]
        "c1" none none).latenessRate
      = specLatenessRate
          (dateWindow none none
            (([⟨"a1", "s1", "c1", "2024-03-04", "12:45", 15, "late", "t"⟩,
               ⟨"a2", "s1", "c1", "2024-03-05", "12:55", 25, "late", "t"⟩,
               ⟨"a3", "s1", "c1", "2024-03-06", "12:20", 0, "on-time", "t"⟩] : List Arrival).filter
              (fun a => a.classId == "c1"))) := by
  refine ⟨by decide, by decide, ?_, ?_⟩
  · exact (C7_stats_rounding _ "s1" "c1" none none (by decide) (by decide)).1
  · exact (C7_stats_rounding _ "s1" "c1" none none (by decide) (by decide)).2
